import Mathlib

/-!
Shallow embedding of the scheduling core of the orchestrator repository.

The embedded source functions are:
- the cron due-time evaluator of `orchestrator/sensors/report_sensor.py`
  (`report_cron_sensor`) and `orchestrator/schedules/dynamic_schedules.py`
  (`unified_report_schedule`): both compute
  `croniter(cron_expr, current_time - timing_window).get_next(datetime)` and
  fire when that time is `<= current_time`;
- the change detector `DynamicJobManager.detect_changes`,
  `DynamicJobManager.load_cache` and
  `DynamicJobManager.update_cache_with_changes` of
  `orchestrator/utils/dynamic_job_manager.py`;
- the discovery asset `report_cron_schedules` of
  `orchestrator/assets/report_discovery.py`;
- the polling loop of `job_completion_status` of
  `orchestrator/assets/report_processing.py`.

Times are modelled as whole seconds (`Nat`).  The semantics of a cron expression is
modelled as its set of fire times (a Boolean predicate on seconds), and
`croniter(expr, base).get_next(...)` as the least fire time strictly greater
than `base`, computed by bounded search (`nextFire`, with an explicit fuel
bound that the theorems require to cover the evaluation window).
-/

namespace Orchestrator

/-! ### Cron due-time evaluator -/

/-- Bounded linear search for the first `t` with `fires t = true`, starting at
`start`, trying at most `fuel` candidate seconds. -/
def nextFireAux (fires : Nat → Bool) : Nat → Nat → Option Nat
  | 0, _ => none
  | fuel + 1, t => if fires t then some t else nextFireAux fires fuel (t + 1)

/-- Model of `croniter(cron_expr, base).get_next(datetime)`: the least fire
time strictly greater than `base` (found within `fuel` seconds of search). -/
def nextFire (fires : Nat → Bool) (base fuel : Nat) : Option Nat :=
  nextFireAux fires fuel (base + 1)

/-- The time `t` is the first fire time strictly after `base`. -/
def isLeastFireAfter (fires : Nat → Bool) (base t : Nat) : Prop :=
  fires t = true ∧ base < t ∧ ∀ s, base < s → s < t → fires s = false

/-- The run request built by `report_cron_sensor` (report_sensor.py:81-114) for
a due report: the partition key is `report_{report_id}_{int(next_run.timestamp())}`,
the run date is `next_run.date()` (modelled as the epoch-day number), and the
`scheduled_time` tag is `next_run.isoformat()`; all derive from the computed
cron fire time `next_run`, not from `current_time`. -/
structure RunRequest where
  partitionKey : Nat × Nat
  runDate : Nat
  tagReportId : Nat
  tagScheduledTime : Nat
deriving DecidableEq, Repr

/-- Build the run request for report `rid` at nominal fire time `nr`
(report_sensor.py:78-114). -/
def mkRunRequest (rid nr : Nat) : RunRequest :=
  { partitionKey := (rid, nr)
    runDate := nr / 86400
    tagReportId := rid
    tagScheduledTime := nr }

/-- Per-task due evaluation (report_sensor.py:72-114, identically
dynamic_schedules.py:66-106): `next_run = croniter(cron, now - w).get_next()`;
if `next_run <= now` the task fires with nominal time `next_run`. -/
def evalTask (fires : Nat → Bool) (fuel rid now w : Nat) : Option RunRequest :=
  match nextFire fires (now - w) fuel with
  | some nr => if nr ≤ now then some (mkRunRequest rid nr) else none
  | none => none

/-! ### Sensor evaluation cycle -/

/-- Outcome of one sensor evaluation (report_sensor.py:119 returns a
`SensorResult`; report_sensor.py:121-123 catches any exception raised inside
the loop and returns a `SkipReason` instead, discarding all accumulated run
requests). -/
inductive SensorOutcome
  | skip (reason : String)
  | result (runs : List RunRequest)
deriving DecidableEq, Repr

/-- The per-report loop of `report_cron_sensor` (report_sensor.py:69-114).
`parse` models the `croniter` constructor: `none` means the constructor raises
(malformed cron); an exception anywhere aborts the whole loop (the single
try/except of report_sensor.py:31/121 wraps all reports). -/
def sensorLoop (parse : String → Option (Nat → Bool)) (fuel now w : Nat) :
    List (Nat × String) → Except String (List RunRequest)
  | [] => .ok []
  | (rid, cronExpr) :: rest =>
    match parse cronExpr with
    | none => .error "Invalid cron"
    | some fires =>
      match sensorLoop parse fuel now w rest with
      | .error e => .error e
      | .ok evs =>
        match evalTask fires fuel rid now w with
        | some rq => .ok (rq :: evs)
        | none => .ok evs

/-- One evaluation of `report_cron_sensor` over the cron-schedules map
(report_sensor.py:63-123): a successful loop yields `SensorResult(run_requests)`;
an exception yields a `SkipReason` and every run request is lost. -/
def report_cron_sensor (parse : String → Option (Nat → Bool))
    (fuel now w : Nat) (schedules : List (Nat × String)) : SensorOutcome :=
  match sensorLoop parse fuel now w schedules with
  | .error e => .skip e
  | .ok evs => .result evs

/-! ### Dedupe / run-key registry (spec-modelled) -/

/-- A dedupe key: deterministic function of `(taskId, firingTime)`
(spec section 3; the source derives `report_{id}_{int(fire_time)}`). -/
abbrev DedupeKey := Nat × Nat

/-- Modelled from the spec: the Dedupe / Run-Key Registry of section 4.2 is not
implemented in the repository source (dedupe is delegated to the partition
machinery of the framework), so the registry is modelled from the words of the
spec as a
set-like in-memory store of already-dispatched keys. -/
abbrev Registry := List DedupeKey

/-- Modelled from the spec: `shouldDispatch(dedupeKey) -> bool` is true exactly
when the key has not been marked dispatched. -/
def shouldDispatch (r : Registry) (k : DedupeKey) : Bool :=
  !(decide (k ∈ r))

/-- Modelled from the spec: `markDispatched(dedupeKey)` records the key in the
seen-set of the registry. -/
def markDispatched (r : Registry) (k : DedupeKey) : Registry :=
  k :: r

/-! ### Remote job polling state machine -/

/-- Terminal resolution of one firing of `job_completion_status`
(report_processing.py:212-260): `Finished` returns a completed record,
`Failed` returns a failed record, fuel exhaustion raises the timeout
exception, and an exception from `check_job_status` (a transport failure;
external_api.py:46-55 raises on any network error or non-2xx) propagates out
of the asset uncaught. -/
inductive JobOutcome
  | completed
  | failedJob
  | timedOut
  | transportAbort
deriving DecidableEq, Repr

/-- The poll loop `for attempt in range(MAX_POLL_ATTEMPTS)` of
`job_completion_status` (report_processing.py:212-260), together with the count
of status polls performed.  `script attemptIndex` models the outcome of the
`attemptIndex`-th `check_job_status` call: `.error` is a raised transport
error, `.ok s` is the parsed remote status string.  There is no try/except in
the source loop, so `.error` ends the run at once with the poll already
counted. -/
def pollAux (script : Nat → Except Unit String) : Nat → Nat → JobOutcome × Nat
  | 0, attempt => (.timedOut, attempt)
  | rem + 1, attempt =>
    match script attempt with
    | .error _ => (.transportAbort, attempt + 1)
    | .ok st =>
      if st == "Finished" then (.completed, attempt + 1)
      else if st == "Failed" then (.failedJob, attempt + 1)
      else pollAux script rem (attempt + 1)

/-- The function `job_completion_status` restricted to its poll loop
(report_processing.py:206-260): returns the terminal outcome and the number of
status polls performed. -/
def job_completion_status (script : Nat → Except Unit String)
    (maxAttempts : Nat) : JobOutcome × Nat :=
  pollAux script maxAttempts 0

/-! ### Change detector -/

/-- A task definition as consumed by `DynamicJobManager.detect_changes`:
a record with an `id`, an optional `cron` string and an optional `name`. -/
structure Report where
  id : Nat
  cron : Option String
  name : Option String
deriving DecidableEq, Repr

/-- Python truthiness of `report.get("cron")`: absent (`None`) and the empty
string are falsy. -/
def truthyS : Option String → Bool
  | none => false
  | some s => !s.isEmpty

/-- Python `report.get("name", f"Report {report_id}")`. -/
def pyName (r : Report) : String :=
  r.name.getD ("Report " ++ toString r.id)

/-- One insertion into a Python dict keyed by `id`: a later record with the
same key overwrites the stored value, a new key is appended in insertion
order. -/
def dictInsert (d : List Report) (r : Report) : List Report :=
  if d.any (fun x => x.id == r.id) then
    d.map (fun x => if x.id == r.id then r else x)
  else d ++ [r]

/-- Python `{r["id"]: r for r in reports}` (dynamic_job_manager.py:45-46):
key order is first-occurrence order, value is the last record with that id. -/
def pyDict (l : List Report) : List Report :=
  l.foldl dictInsert []

/-- Dict lookup by id (`current_reports[report_id]` / `report_id in dict`). -/
def dictFind (d : List Report) (i : Nat) : Option Report :=
  d.find? (fun r => r.id == i)

/-- An entry of `changes["cron_changes"]` (dynamic_job_manager.py:80-85). -/
structure CronChange where
  report_id : Nat
  old_cron : Option String
  new_cron : Option String
  report_name : String
deriving DecidableEq, Repr

/-- An entry of `changes["name_changes"]` (dynamic_job_manager.py:92-96). -/
structure NameChange where
  report_id : Nat
  old_name : Option String
  new_name : Option String
deriving DecidableEq, Repr

/-- The result of `DynamicJobManager.detect_changes`
(dynamic_job_manager.py:48-54). -/
structure Changes where
  new_reports : List Report
  removed_reports : List Report
  cron_changes : List CronChange
  name_changes : List NameChange
  requires_restart : Bool
deriving DecidableEq, Repr

/-- One step of the added/removed loops (dynamic_job_manager.py:57-68): if the
id is absent from the other dict and the record has a truthy `cron`, append it
and set `requires_restart`. -/
def diffStep (isInOther : Nat → Bool) (acc : List Report × Bool) (r : Report) :
    List Report × Bool :=
  if isInOther r.id then acc
  else if truthyS r.cron then (acc.1 ++ [r], true)
  else acc

/-- The filter the added/removed loops implement: id absent from the other
dict and truthy `cron`. -/
def diffPred (isInOther : Nat → Bool) (r : Report) : Bool :=
  !isInOther r.id && truthyS r.cron

/-- One step of the cron-change loop (dynamic_job_manager.py:71-85). -/
def cronStep (currentD : List Report) (acc : List CronChange) (r : Report) :
    List CronChange :=
  match dictFind currentD r.id with
  | some cur =>
    if cur.cron ≠ r.cron then
      acc ++ [{ report_id := r.id, old_cron := cur.cron, new_cron := r.cron,
                report_name := pyName r }]
    else acc
  | none => acc

/-- The cron-change record the loop produces for one new record, if any. -/
def cronEntry (currentD : List Report) (r : Report) : Option CronChange :=
  match dictFind currentD r.id with
  | some cur =>
    if cur.cron ≠ r.cron then
      some { report_id := r.id, old_cron := cur.cron, new_cron := r.cron,
             report_name := pyName r }
    else none
  | none => none

/-- One step of the name-change loop (dynamic_job_manager.py:87-96). -/
def nameStep (currentD : List Report) (acc : List NameChange) (r : Report) :
    List NameChange :=
  match dictFind currentD r.id with
  | some cur =>
    if cur.name ≠ r.name then
      acc ++ [{ report_id := r.id, old_name := cur.name, new_name := r.name }]
    else acc
  | none => acc

/-- The name-change record the loop produces for one new record, if any. -/
def nameEntry (currentD : List Report) (r : Report) : Option NameChange :=
  match dictFind currentD r.id with
  | some cur =>
    if cur.name ≠ r.name then
      some { report_id := r.id, old_name := cur.name, new_name := r.name }
    else none
  | none => none

/-- The method `DynamicJobManager.detect_changes` (dynamic_job_manager.py:39-98), taking
the cached report list (from `load_cache()["reports"]`) explicitly: builds
id-keyed dicts of both lists, collects new cron-bearing reports, removed
cron-bearing reports, cron changes and name changes, and sets
`requires_restart` exactly in the added/removed branches.  The source performs
cron and name comparison in one loop over the new dict; they are embedded as
two folds producing the same two lists. -/
def detect_changes (cachedReports newReports : List Report) : Changes :=
  let currentD := pyDict cachedReports
  let newD := pyDict newReports
  let s1 := newD.foldl (diffStep (fun i => (dictFind currentD i).isSome)) ([], false)
  let s2 := currentD.foldl (diffStep (fun i => (dictFind newD i).isSome)) ([], s1.2)
  { new_reports := s1.1
    removed_reports := s2.1
    cron_changes := newD.foldl (cronStep currentD) []
    name_changes := newD.foldl (nameStep currentD) []
    requires_restart := s2.2 }

/-- An entry of the `cron_schedules` map (`{id: {cron, name}}`). -/
structure ScheduleEntry where
  report_id : Nat
  cron : String
  name : String
deriving DecidableEq, Repr

/-- The `cron_schedules` map built by
`DynamicJobManager.update_cache_with_changes` (dynamic_job_manager.py:124-138):
a report is added only if its id and cron are truthy and `croniter(cron)`
validates; the surrounding try/except turns a parse failure into a logged
skip.  `valid` models croniter parseability. -/
def build_cron_schedules (valid : String → Bool) (newReports : List Report) :
    List ScheduleEntry :=
  newReports.foldl (fun acc r =>
    if r.id != 0 && truthyS r.cron then
      match r.cron with
      | some c =>
        if valid c then
          acc ++ [{ report_id := r.id, cron := c, name := pyName r }]
        else acc
      | none => acc
    else acc) []

/-- The per-report segment contributed to the `cron_map` of the discovery
asset `report_cron_schedules` (report_discovery.py:34-56): skip a falsy id,
skip a falsy cron, validate with `croniter` inside a per-report try/except and
keep only valid entries. -/
def discEntry (valid : String → Bool) (r : Report) : Option ScheduleEntry :=
  if r.id == 0 then none
  else
    match r.cron with
    | some c =>
      if !c.isEmpty then
        (if valid c then
          some { report_id := r.id, cron := c, name := pyName r }
        else none)
      else none
    | none => none

/-- The `cron_map` loop of `report_cron_schedules`
(report_discovery.py:31-56). -/
def discovery_cron_map (valid : String → Bool) (reports : List Report) :
    List ScheduleEntry :=
  reports.foldl (fun acc r =>
    match discEntry valid r with
    | some e => acc ++ [e]
    | none => acc) []

/-! ### Cache loading and discovery cycle -/

/-- The persisted snapshot cache contents relevant to `detect_changes`. -/
structure CacheData where
  reports : List Report
deriving DecidableEq, Repr

/-- The state of the cache file as seen by `DynamicJobManager.load_cache`. -/
inductive CacheFile
  | absent
  | corrupt
  | valid (data : CacheData)
deriving DecidableEq, Repr

/-- The method `DynamicJobManager.load_cache` (dynamic_job_manager.py:21-29): a missing
file, and any exception while reading or parsing it, yield the default
`{"reports": [], ...}`. -/
def load_cache : CacheFile → CacheData
  | .absent => { reports := [] }
  | .corrupt => { reports := [] }
  | .valid d => d

/-- The detector `detect_changes` as actually invoked: on top of whatever `load_cache`
returns for the persisted cache file. -/
def detect_changes_from_cache (cf : CacheFile) (newReports : List Report) :
    Changes :=
  detect_changes (load_cache cf).reports newReports

/-- The discovery cycle `report_cron_schedules` up to the snapshot write
(report_discovery.py:25-29 with api_client.py:29-35): `get_all_reports` raises
on any transport error or non-2xx (`raise_for_status`), in which case the
asset aborts before `detect_and_handle_report_changes` runs, so no change
detection happens and no new snapshot is written; on success the fetched list
becomes the new snapshot together with the detected changes. -/
def runDiscovery (fetch : Except Unit (List Report))
    (cache : List Report) : Except Unit (List Report × Changes) :=
  match fetch with
  | .error e => .error e
  | .ok reports => .ok (reports, detect_changes cache reports)

/-! ### Concrete scenario data used in counterexamples and witnesses -/

/-- A daily-at-09:00 schedule at whole-second granularity (the spec scenario
`0 9 * * *`): fires at second 32400 of every day. -/
def dailyNineFires : Nat → Bool := fun t => t % 86400 == 32400

/-- The scripted run of the claim: the first two polls raise transport errors,
the third returns `Finished`. -/
def c3Script : Nat → Except Unit String :=
  fun n => if n < 2 then .error () else .ok "Finished"

/-- The scripted run for the witness of the amended C3: the first poll returns
`Running`, the second raises a transport error. -/
def c3ScriptB : Nat → Except Unit String :=
  fun n => if n == 1 then .error () else .ok "Running"

/-- The scripted status sequence `[Running, Running, Finished, ...]`. -/
def c4ScriptA : Nat → String := fun n => if n < 2 then "Running" else "Finished"

/-- The always-`Running` status sequence. -/
def c4ScriptB : Nat → String := fun _ => "Running"

/-- A report with a present but unparsable cron expression (C6 scenario). -/
def badCronReport : Report := { id := 1, cron := some "not a cron", name := some "X" }

/-- A croniter-parseability oracle that rejects every string. -/
def alwaysInvalid : String → Bool := fun _ => false

/-- A croniter-parseability oracle that rejects exactly the string `bad`. -/
def rejectBad : String → Bool := fun s => !(s == "bad")

/-- A report whose cron is the (rejected) string `bad`. -/
def c6Report : Report := { id := 5, cron := some "bad", name := none }

/-- Prior snapshot for the C7 witness. -/
def c7Cached : List Report := [{ id := 2, cron := some "c", name := some "Y" }]

/-- New definitions for the C7 witness, one order. -/
def c7ListA : List Report :=
  [{ id := 1, cron := some "a", name := some "X" },
   { id := 2, cron := some "b", name := some "Y" }]

/-- New definitions for the C7 witness, the other order. -/
def c7ListB : List Report :=
  [{ id := 2, cron := some "b", name := some "Y" },
   { id := 1, cron := some "a", name := some "X" }]

/-- A croniter model that parses exactly the string `good`, whose schedule
fires at second 90 (C8 counterexample). -/
def c8Parse : String → Option (Nat → Bool) :=
  fun s => if s == "good" then some (fun t => t == 90) else none

/-- A croniter model that parses nothing (C8 witness). -/
def parseNothing : String → Option (Nat → Bool) := fun _ => none

/-- Discovery input kept by the C8 witness. -/
def c8GoodReport : Report := { id := 4, cron := some "ok", name := none }

/-- Discovery input rejected by the C8 witness. -/
def c8BadReport : Report := { id := 3, cron := some "z", name := none }

/-- A cached snapshot with one cron-bearing report (C9 witness). -/
def c9Cache : List Report := [{ id := 1, cron := some "0 9 * * *", name := some "X" }]

/-- A new cron-bearing report (C5 witness). -/
def c5NewReport : Report := { id := 2, cron := some "0 10 * * *", name := some "Z" }

/-! ## Theorems -/

/-! ### Bounded search lemmas for the cron evaluator -/

theorem nextFireAux_some_spec (fires : Nat → Bool) :
    ∀ fuel start t, nextFireAux fires fuel start = some t →
      fires t = true ∧ start ≤ t ∧ t < start + fuel ∧
      ∀ s, start ≤ s → s < t → fires s = false := by
  intro fuel
  induction fuel with
  | zero => intro start t h; simp [nextFireAux] at h
  | succ n ih =>
    intro start t h
    by_cases hf : fires start = true
    · have ht : start = t := by simpa [nextFireAux, hf] using h
      subst ht
      exact ⟨hf, Nat.le_refl _, by omega,
        fun s hs hst => absurd hst (Nat.not_lt.mpr hs)⟩
    · have hf' : fires start = false := by
        cases hfs : fires start with
        | true => exact absurd hfs hf
        | false => rfl
      have h' : nextFireAux fires n (start + 1) = some t := by
        simpa [nextFireAux, hf'] using h
      obtain ⟨h1, h2, h3, h4⟩ := ih (start + 1) t h'
      refine ⟨h1, by omega, by omega, ?_⟩
      intro s hs hst
      rcases Nat.eq_or_lt_of_le hs with heq | hlt
      · exact heq ▸ hf'
      · exact h4 s (by omega) hst

theorem nextFireAux_complete (fires : Nat → Bool) :
    ∀ fuel start t, fires t = true → start ≤ t → t < start + fuel →
      (nextFireAux fires fuel start).isSome = true := by
  intro fuel
  induction fuel with
  | zero => intro start t _ _ h3; omega
  | succ n ih =>
    intro start t h1 h2 h3
    by_cases hf : fires start = true
    · simp [nextFireAux, hf]
    · have hf' : fires start = false := by
        cases hfs : fires start with
        | true => exact absurd hfs hf
        | false => rfl
      have hne : start ≠ t := by
        intro he
        rw [he, h1] at hf'
        exact Bool.noConfusion hf'
      have hstep : nextFireAux fires (n + 1) start = nextFireAux fires n (start + 1) := by
        simp [nextFireAux, hf']
      rw [hstep]
      exact ih (start + 1) t h1 (by omega) (by omega)

/-- Claim C1: for a parseable cron schedule, a window length `w > 0` and a
current time `now` (with enough search fuel to cover the window), the
evaluator fires exactly when the first cron fire time strictly after `now - w`
is `<= now`, equivalently when a fire time lies in the half-open window
`(now - w, now]`; and when due, the nominal firing time used for the run date,
the partition key and the tags is that computed cron fire time (the least fire
time strictly after `now - w`), not the evaluation instant. -/
theorem cron_evaluator_due_exactly_in_window (fires : Nat → Bool)
    (fuel rid now w : Nat) (hw : 0 < w) (hfuel : now - (now - w) ≤ fuel) :
    ((evalTask fires fuel rid now w).isSome = true ↔
      ∃ t, now - w < t ∧ t ≤ now ∧ fires t = true) ∧
    ∀ rq, evalTask fires fuel rid now w = some rq →
      isLeastFireAfter fires (now - w) rq.tagScheduledTime ∧
      rq.partitionKey = (rid, rq.tagScheduledTime) ∧
      rq.runDate = rq.tagScheduledTime / 86400 ∧
      rq.tagReportId = rid := by
  constructor
  · constructor
    · intro hsome
      cases hnf : nextFireAux fires fuel (now - w + 1) with
      | none =>
        simp [evalTask, nextFire, hnf] at hsome
      | some nr =>
        obtain ⟨h1, h2, _, _⟩ := nextFireAux_some_spec fires fuel (now - w + 1) nr hnf
        by_cases hle : nr ≤ now
        · exact ⟨nr, by omega, hle, h1⟩
        · simp [evalTask, nextFire, hnf, hle] at hsome
    · rintro ⟨t, ht1, ht2, ht3⟩
      have hc := nextFireAux_complete fires fuel (now - w + 1) t ht3 (by omega) (by omega)
      cases hnf : nextFireAux fires fuel (now - w + 1) with
      | none => rw [hnf] at hc; simp at hc
      | some nr =>
        obtain ⟨h1, h2, h3, h4⟩ := nextFireAux_some_spec fires fuel (now - w + 1) nr hnf
        have hnr_le : nr ≤ t := by
          by_contra hgt
          push_neg at hgt
          have hfalse := h4 t (by omega) hgt
          rw [hfalse] at ht3
          exact Bool.noConfusion ht3
        simp [evalTask, nextFire, hnf, Nat.le_trans hnr_le ht2]
  · intro rq hrq
    cases hnf : nextFireAux fires fuel (now - w + 1) with
    | none => simp [evalTask, nextFire, hnf] at hrq
    | some nr =>
      by_cases hle : nr ≤ now
      · simp only [evalTask, nextFire, hnf, if_pos hle, Option.some.injEq] at hrq
        obtain ⟨h1, h2, h3, h4⟩ := nextFireAux_some_spec fires fuel (now - w + 1) nr hnf
        subst hrq
        simp only [mkRunRequest]
        refine ⟨⟨h1, by omega, ?_⟩, trivial, trivial, trivial⟩
        intro s hs1 hs2
        exact h4 s (by omega) hs2
      · simp [evalTask, nextFire, hnf, hle] at hrq

/-- Witness for C1: report 7 with the daily 09:00 cron, window
`(08:59:00, 09:00:00]`, current time 09:00:00, is due. -/
theorem cron_evaluator_due_exactly_in_window_witness :
    (evalTask dailyNineFires 61 7 32400 60).isSome = true :=
  (cron_evaluator_due_exactly_in_window dailyNineFires 61 7 32400 60
    (by decide) (by decide)).1.mpr ⟨32400, by decide, by decide, by decide⟩

/-! ### Dedupe registry -/

theorem foldl_markDispatched_mem (k : DedupeKey) :
    ∀ (ks : List DedupeKey) (r : Registry), k ∈ r → k ∈ ks.foldl markDispatched r := by
  intro ks
  induction ks with
  | nil => intro r h; exact h
  | cons a t ih => intro r h; exact ih _ (List.mem_cons_of_mem a h)

/-- Claim C2: once the registry has marked a dedupe key dispatched, every
subsequent `shouldDispatch` check for that key — after any further sequence of
`markDispatched` calls — returns false, so each key is dispatched at most once
per registry lifetime. -/
theorem dedupe_key_dispatched_at_most_once (r : Registry) (k : DedupeKey)
    (ks : List DedupeKey) :
    shouldDispatch (ks.foldl markDispatched (markDispatched r k)) k = false := by
  have hmem : k ∈ ks.foldl markDispatched (markDispatched r k) :=
    foldl_markDispatched_mem k ks (markDispatched r k) (List.mem_cons_self k r)
  simp [shouldDispatch, hmem]

/-! ### Poll loop lemmas -/

theorem pollAux_succ (script : Nat → Except Unit String) (n attempt : Nat) :
    pollAux script (n + 1) attempt =
      match script attempt with
      | .error _ => (.transportAbort, attempt + 1)
      | .ok st =>
        if st == "Finished" then (.completed, attempt + 1)
        else if st == "Failed" then (.failedJob, attempt + 1)
        else pollAux script n (attempt + 1) := rfl

theorem pollAux_timeout (script : Nat → Except Unit String) :
    ∀ rem attempt,
      (∀ i, attempt ≤ i → i < attempt + rem →
        ∃ st, script i = .ok st ∧ st ≠ "Finished" ∧ st ≠ "Failed") →
      pollAux script rem attempt = (.timedOut, attempt + rem) := by
  intro rem
  induction rem with
  | zero => intro attempt _; rfl
  | succ n ih =>
    intro attempt h
    obtain ⟨st, hok, hf, hfl⟩ := h attempt (Nat.le_refl _) (by omega)
    have hb1 : (st == "Finished") = false := beq_eq_false_iff_ne.mpr hf
    have hb2 : (st == "Failed") = false := beq_eq_false_iff_ne.mpr hfl
    have hstep : pollAux script (n + 1) attempt = pollAux script n (attempt + 1) := by
      rw [pollAux_succ script n attempt, hok]
      simp [hb1, hb2]
    rw [hstep, ih (attempt + 1) (fun i hi1 hi2 => h i (by omega) (by omega))]
    congr 1
    omega

theorem pollAux_terminal (script : Nat → Except Unit String) :
    ∀ rem attempt j, attempt ≤ j → j < attempt + rem →
      (∀ i, attempt ≤ i → i < j →
        ∃ st, script i = .ok st ∧ st ≠ "Finished" ∧ st ≠ "Failed") →
      ∀ st, script j = .ok st → (st = "Finished" ∨ st = "Failed") →
      pollAux script rem attempt =
        ((if st = "Finished" then .completed else .failedJob), j + 1) := by
  intro rem
  induction rem with
  | zero => intro attempt j h1 h2; omega
  | succ n ih =>
    intro attempt j h1 h2 hpre st hok hterm
    rcases Nat.eq_or_lt_of_le h1 with heq | hlt
    · subst heq
      rcases hterm with hfin | hfail
      · subst hfin
        simp [pollAux, hok]
      · subst hfail
        have hb1 : (("Failed" : String) == "Finished") = false := by decide
        have hb2 : (("Failed" : String) == "Failed") = true := by decide
        have hne : ("Failed" : String) ≠ "Finished" := by decide
        simp [pollAux, hok, hb1, hb2, hne]
    · obtain ⟨st0, hok0, hf0, hfl0⟩ := hpre attempt (Nat.le_refl _) hlt
      have hb1 : (st0 == "Finished") = false := beq_eq_false_iff_ne.mpr hf0
      have hb2 : (st0 == "Failed") = false := beq_eq_false_iff_ne.mpr hfl0
      have hstep : pollAux script (n + 1) attempt = pollAux script n (attempt + 1) := by
        rw [pollAux_succ script n attempt, hok0]
        simp [hb1, hb2]
      rw [hstep]
      exact ih (attempt + 1) j (by omega) (by omega)
        (fun i hi1 hi2 => hpre i (by omega) hi2) st hok hterm

theorem pollAux_transport_error (script : Nat → Except Unit String) :
    ∀ rem attempt j, attempt ≤ j → j < attempt + rem →
      (∀ i, attempt ≤ i → i < j →
        ∃ st, script i = .ok st ∧ st ≠ "Finished" ∧ st ≠ "Failed") →
      script j = .error () →
      pollAux script rem attempt = (.transportAbort, j + 1) := by
  intro rem
  induction rem with
  | zero => intro attempt j h1 h2; omega
  | succ n ih =>
    intro attempt j h1 h2 hpre herr
    rcases Nat.eq_or_lt_of_le h1 with heq | hlt
    · subst heq
      simp [pollAux, herr]
    · obtain ⟨st0, hok0, hf0, hfl0⟩ := hpre attempt (Nat.le_refl _) hlt
      have hb1 : (st0 == "Finished") = false := beq_eq_false_iff_ne.mpr hf0
      have hb2 : (st0 == "Failed") = false := beq_eq_false_iff_ne.mpr hfl0
      have hstep : pollAux script (n + 1) attempt = pollAux script n (attempt + 1) := by
        rw [pollAux_succ script n attempt, hok0]
        simp [hb1, hb2]
      rw [hstep]
      exact ih (attempt + 1) j (by omega) (by omega)
        (fun i hi1 hi2 => hpre i (by omega) hi2) herr

/-! ### C3: transport failures during polling -/

/-- Counterexample to C3 as stated: on the scripted run whose first two polls
raise transport errors and whose third poll returns `Finished`, the source
poll loop aborts after exactly one poll with the propagated transport error;
it does not retry within the attempt budget and does not resolve Completed. -/
theorem poll_transport_retry_cex :
    job_completion_status c3Script 5 = (.transportAbort, 1) ∧
    job_completion_status c3Script 5 ≠ (.completed, 3) := by
  constructor
  · rfl
  · decide

/-- Claim C3 amended: a transport failure on a single status-check attempt is
not retried — the exception propagates out of the poll loop immediately after
that attempt and aborts the firing — but it is never conflated with a remote
`Failed` status: the outcome is a transport abort, never the failed-job
outcome. -/
theorem poll_transport_error_aborts (script : Nat → Except Unit String)
    (maxAttempts k : Nat) (hk : k < maxAttempts)
    (hpre : ∀ i, i < k →
      ∃ st, script i = .ok st ∧ st ≠ "Finished" ∧ st ≠ "Failed")
    (herr : script k = .error ()) :
    job_completion_status script maxAttempts = (.transportAbort, k + 1) ∧
    ∀ n, job_completion_status script maxAttempts ≠ (.failedJob, n) := by
  have h := pollAux_transport_error script maxAttempts 0 k (by omega) (by omega)
    (fun i _ hi2 => hpre i hi2) herr
  rw [job_completion_status] at *
  refine ⟨h, ?_⟩
  intro n hcontra
  rw [h] at hcontra
  have h1 : JobOutcome.transportAbort = JobOutcome.failedJob :=
    congrArg Prod.fst hcontra
  exact JobOutcome.noConfusion h1

/-- Witness for the amended C3: with one non-terminal poll followed by a
transport error, the loop aborts after exactly two polls and never reports the
failed-job outcome. -/
theorem poll_transport_error_aborts_witness :
    job_completion_status c3ScriptB 4 = (.transportAbort, 2) ∧
    ∀ n, job_completion_status c3ScriptB 4 ≠ (.failedJob, n) :=
  poll_transport_error_aborts c3ScriptB 4 1 (by omega)
    (fun i hi => ⟨"Running", by
      have : i = 0 := by omega
      subst this
      exact rfl, by decide, by decide⟩)
    rfl

/-! ### C4: exact poll counts -/

/-- Claim C4: for a scripted remote-status sequence (no transport errors),
the poll loop performs exactly `k` polls when the first terminal status —
`Finished` resolving Completed, `Failed` resolving the failed-job outcome —
appears at attempt `k <= maxAttempts`; and when no terminal status appears in
`maxAttempts` polls it performs exactly `maxAttempts` polls, performs no
further poll, and finalizes the firing as TimedOut. -/
theorem poll_count_exact (script : Nat → String) (maxAttempts k : Nat) :
    (0 < k → k ≤ maxAttempts →
      (∀ i, i + 1 < k → script i ≠ "Finished" ∧ script i ≠ "Failed") →
      (script (k - 1) = "Finished" ∨ script (k - 1) = "Failed") →
      job_completion_status (fun n => .ok (script n)) maxAttempts =
        ((if script (k - 1) = "Finished" then .completed else .failedJob), k)) ∧
    ((∀ i, i < maxAttempts → script i ≠ "Finished" ∧ script i ≠ "Failed") →
      job_completion_status (fun n => .ok (script n)) maxAttempts =
        (.timedOut, maxAttempts)) := by
  constructor
  · intro hk0 hkmax hpre hterm
    have h := pollAux_terminal (fun n => .ok (script n)) maxAttempts 0 (k - 1)
      (by omega) (by omega)
      (fun i _ hi2 =>
        ⟨script i, rfl, (hpre i (by omega)).1, (hpre i (by omega)).2⟩)
      (script (k - 1)) rfl hterm
    have hsub : k - 1 + 1 = k := by omega
    rw [job_completion_status, h, hsub]
  · intro hall
    have h := pollAux_timeout (fun n => .ok (script n)) maxAttempts 0
      (fun i _ hi2 => ⟨script i, rfl, (hall i (by omega)).1, (hall i (by omega)).2⟩)
    rw [job_completion_status, h, Nat.zero_add]

/-- Witness for C4: the sequence `[Running, Running, Finished]` resolves
Completed after exactly 3 polls; an all-`Running` sequence with
`maxAttempts = 4` resolves TimedOut after exactly 4 polls. -/
theorem poll_count_exact_witness :
    job_completion_status (fun n => .ok (c4ScriptA n)) 5 = (.completed, 3) ∧
    job_completion_status (fun n => .ok (c4ScriptB n)) 4 = (.timedOut, 4) := by
  constructor
  · have h := (poll_count_exact c4ScriptA 5 3).1 (by omega) (by omega)
      (fun i hi => by
        have hi2 : i < 2 := by omega
        have hrun : c4ScriptA i = "Running" := by simp [c4ScriptA, hi2]
        rw [hrun]
        exact ⟨by decide, by decide⟩)
      (Or.inl rfl)
    rw [if_pos (show c4ScriptA 2 = "Finished" from rfl)] at h
    exact h
  · exact (poll_count_exact c4ScriptB 4 4).2
      (fun i _ => by
        rw [show c4ScriptB i = "Running" from rfl]
        exact ⟨by decide, by decide⟩)

/-! ### Fold characterizations of the change detector -/

theorem foldl_append_toList {β γ : Type} (g : γ → Option β)
    (step : List β → γ → List β)
    (hstep : ∀ acc x, step acc x = acc ++ (g x).toList) :
    ∀ (l : List γ) (acc : List β), l.foldl step acc = acc ++ l.filterMap g := by
  intro l
  induction l with
  | nil => intro acc; simp
  | cons x t ih =>
    intro acc
    rw [List.foldl_cons, hstep, ih]
    cases hg : g x with
    | none => simp [List.filterMap_cons, hg]
    | some b => simp [List.filterMap_cons, hg]

theorem cronStep_eq_entry (d : List Report) (acc : List CronChange) (r : Report) :
    cronStep d acc r = acc ++ (cronEntry d r).toList := by
  unfold cronStep cronEntry
  cases dictFind d r.id with
  | none => simp
  | some cur =>
    by_cases h : cur.cron ≠ r.cron
    · simp [h]
    · simp [h]

theorem nameStep_eq_entry (d : List Report) (acc : List NameChange) (r : Report) :
    nameStep d acc r = acc ++ (nameEntry d r).toList := by
  unfold nameStep nameEntry
  cases dictFind d r.id with
  | none => simp
  | some cur =>
    by_cases h : cur.name ≠ r.name
    · simp [h]
    · simp [h]

theorem diffStep_eq (q : Nat → Bool) (acc : List Report × Bool) (r : Report) :
    diffStep q acc r =
      (acc.1 ++ (if diffPred q r then [r] else []), acc.2 || diffPred q r) := by
  unfold diffStep diffPred
  by_cases hq : q r.id = true
  · simp [hq]
  · have hq' : q r.id = false := by revert hq; cases q r.id <;> simp
    by_cases hc : truthyS r.cron = true
    · simp [hq', hc]
    · have hc' : truthyS r.cron = false := by revert hc; cases truthyS r.cron <;> simp
      simp [hq', hc']

theorem foldl_diffStep_eq (q : Nat → Bool) :
    ∀ (l : List Report) (acc : List Report) (b : Bool),
      l.foldl (diffStep q) (acc, b) =
        (acc ++ l.filter (diffPred q), b || !(l.filter (diffPred q)).isEmpty) := by
  intro l
  induction l with
  | nil => intro acc b; simp
  | cons r t ih =>
    intro acc b
    rw [List.foldl_cons, diffStep_eq]
    by_cases hp : diffPred q r = true
    · simp only [hp, if_true, Bool.or_true]
      rw [ih]
      simp [List.filter_cons, hp]
    · have hp' : diffPred q r = false := by revert hp; cases diffPred q r <;> simp
      simp only [hp', if_false, Bool.or_false]
      rw [ih]
      simp [List.filter_cons, hp']

theorem detect_new_reports_eq (cached new : List Report) :
    (detect_changes cached new).new_reports =
      (pyDict new).filter
        (diffPred (fun i => (dictFind (pyDict cached) i).isSome)) := by
  show ((pyDict new).foldl
    (diffStep (fun i => (dictFind (pyDict cached) i).isSome)) ([], false)).1 = _
  rw [foldl_diffStep_eq]
  simp

theorem detect_removed_reports_eq (cached new : List Report) :
    (detect_changes cached new).removed_reports =
      (pyDict cached).filter
        (diffPred (fun i => (dictFind (pyDict new) i).isSome)) := by
  show ((pyDict cached).foldl
    (diffStep (fun i => (dictFind (pyDict new) i).isSome))
    ([], ((pyDict new).foldl
      (diffStep (fun i => (dictFind (pyDict cached) i).isSome)) ([], false)).2)).1 = _
  rw [foldl_diffStep_eq]
  simp

theorem detect_requires_restart_eq (cached new : List Report) :
    (detect_changes cached new).requires_restart =
      (!((pyDict new).filter
          (diffPred (fun i => (dictFind (pyDict cached) i).isSome))).isEmpty ||
       !((pyDict cached).filter
          (diffPred (fun i => (dictFind (pyDict new) i).isSome))).isEmpty) := by
  show ((pyDict cached).foldl
    (diffStep (fun i => (dictFind (pyDict new) i).isSome))
    ([], ((pyDict new).foldl
      (diffStep (fun i => (dictFind (pyDict cached) i).isSome)) ([], false)).2)).2 = _
  rw [foldl_diffStep_eq, foldl_diffStep_eq]
  simp

theorem detect_cron_changes_eq (cached new : List Report) :
    (detect_changes cached new).cron_changes =
      (pyDict new).filterMap (cronEntry (pyDict cached)) := by
  show (pyDict new).foldl (cronStep (pyDict cached)) [] = _
  rw [foldl_append_toList (cronEntry (pyDict cached)) _
    (cronStep_eq_entry (pyDict cached))]
  simp

theorem detect_name_changes_eq (cached new : List Report) :
    (detect_changes cached new).name_changes =
      (pyDict new).filterMap (nameEntry (pyDict cached)) := by
  show (pyDict new).foldl (nameStep (pyDict cached)) [] = _
  rw [foldl_append_toList (nameEntry (pyDict cached)) _
    (nameStep_eq_entry (pyDict cached))]
  simp

/-! ### C5: the disruptive flag -/

/-- Claim C5: for every pair of old and new snapshots, the disruptive flag
of the change report (`requires_restart`) is true exactly when the set of added
cron-bearing tasks or the set of removed cron-bearing tasks is non-empty;
in particular cron or name edits to tasks present in both snapshots never set
it. -/
theorem detect_disruptive_iff (cached new : List Report) :
    (detect_changes cached new).requires_restart = true ↔
      ((detect_changes cached new).new_reports ≠ [] ∨
       (detect_changes cached new).removed_reports ≠ []) := by
  rw [detect_requires_restart_eq, detect_new_reports_eq, detect_removed_reports_eq]
  simp [List.isEmpty_iff]

/-- Witness for C5: adding one cron-bearing task to an empty snapshot sets the
disruptive flag. -/
theorem detect_disruptive_iff_witness :
    (detect_changes [] [c5NewReport]).requires_restart = true :=
  (detect_disruptive_iff [] [c5NewReport]).mpr (Or.inl (by decide))

/-! ### C6: present but unparsable cron expressions -/

/-- Counterexample to C6 as stated: a task whose cron string is present but
rejected by the parseability oracle is nevertheless counted in the added set
of `detect_changes` (which never parses cron expressions, only tests
presence), and it sets the disruptive flag. -/
theorem unparsable_cron_counts_as_added_cex :
    alwaysInvalid "not a cron" = false ∧
    (detect_changes [] [badCronReport]).new_reports = [badCronReport] ∧
    (detect_changes [] [badCronReport]).requires_restart = true := by
  refine ⟨rfl, by decide, by decide⟩

/-- Claim C6 amended: the detector never crashes on an unparsable cron, but a
present (non-empty) cron string counts as "has cron" for add/remove
accounting regardless of parseability — a new task with an unparsable cron is
included in the added set and sets the disruptive flag; the unparsable cron is
excluded only from the `cron_schedules` map that
`update_cache_with_changes` builds for scheduling, where `croniter` validation
happens under a per-task try/except. -/
theorem unparsable_cron_added_but_not_scheduled (valid : String → Bool)
    (cached : List Report) (r : Report) (c : String)
    (hc : r.cron = some c) (hne : c.isEmpty = false) (hv : valid c = false)
    (hnot : dictFind (pyDict cached) r.id = none) :
    (detect_changes cached [r]).new_reports = [r] ∧
    (detect_changes cached [r]).requires_restart = true ∧
    build_cron_schedules valid [r] = [] := by
  have htr : truthyS r.cron = true := by rw [hc]; simp [truthyS, hne]
  have hpy : pyDict [r] = [r] := rfl
  refine ⟨?_, ?_, ?_⟩
  · rw [detect_new_reports_eq, hpy]
    simp [List.filter_cons, diffPred, hnot, htr]
  · rw [detect_requires_restart_eq, hpy]
    simp [List.filter_cons, diffPred, hnot, htr]
  · show List.foldl _ [] [r] = []
    simp only [List.foldl_cons, List.foldl_nil]
    rw [hc]
    simp [hv]

/-- Witness for the amended C6: report 5 with the rejected cron string `bad`
is added (and disruptive) but produces no schedule entry. -/
theorem unparsable_cron_added_but_not_scheduled_witness :
    (detect_changes [] [c6Report]).new_reports = [c6Report] ∧
    (detect_changes [] [c6Report]).requires_restart = true ∧
    build_cron_schedules rejectBad [c6Report] = [] :=
  unparsable_cron_added_but_not_scheduled rejectBad [] c6Report "bad"
    rfl rfl (by decide) rfl

/-! ### C10: absent or corrupt snapshot cache -/

/-- Claim C10: when the persisted snapshot cache is absent or fails to load,
the change detector silently treats the prior snapshot as empty: it reports no
removed tasks, classifies exactly the cron-bearing tasks of the new list as
added, and sets the disruptive flag exactly when there is at least one such
task. -/
theorem cache_failure_treats_prior_as_empty (new : List Report) :
    detect_changes_from_cache .absent new = detect_changes [] new ∧
    detect_changes_from_cache .corrupt new = detect_changes [] new ∧
    (detect_changes [] new).removed_reports = [] ∧
    (detect_changes [] new).new_reports =
      (pyDict new).filter (fun r => truthyS r.cron) ∧
    (detect_changes [] new).requires_restart =
      !((pyDict new).filter (fun r => truthyS r.cron)).isEmpty := by
  have hnil : pyDict ([] : List Report) = [] := rfl
  have hcongr :
      (pyDict new).filter (diffPred (fun i => (dictFind (pyDict []) i).isSome)) =
        (pyDict new).filter (fun r => truthyS r.cron) :=
    List.filter_congr (fun r _ => by simp [diffPred, dictFind, hnil])
  refine ⟨rfl, rfl, ?_, ?_, ?_⟩
  · rw [detect_removed_reports_eq]
    rfl
  · rw [detect_new_reports_eq, hcongr]
  · rw [detect_requires_restart_eq, hcongr]
    simp [hnil]

/-! ### Order independence of the change detector -/

theorem foldl_dictInsert_eq_append :
    ∀ (l acc : List Report), ((acc ++ l).map Report.id).Nodup →
      l.foldl dictInsert acc = acc ++ l := by
  intro l
  induction l with
  | nil => intro acc _; simp
  | cons r t ih =>
    intro acc h
    have hdisj : ∀ x ∈ acc, x.id ≠ r.id := by
      intro x hx he
      rw [List.map_append] at h
      obtain ⟨-, -, hdis⟩ := List.nodup_append.mp h
      exact hdis (List.mem_map_of_mem Report.id hx)
        (by rw [he]; exact List.mem_map_of_mem Report.id (List.mem_cons_self r t))
    have hany : acc.any (fun x => x.id == r.id) = false := by
      rw [List.any_eq_false]
      intro x hx
      simp [hdisj x hx]
    have hins : dictInsert acc r = acc ++ [r] := by
      simp [dictInsert, hany]
    rw [List.foldl_cons, hins, ih (acc ++ [r]) (by simpa using h)]
    simp

theorem pyDict_eq_self (l : List Report) (h : (l.map Report.id).Nodup) :
    pyDict l = l := by
  have := foldl_dictInsert_eq_append l [] (by simpa using h)
  simpa [pyDict] using this

theorem dictFind_eq_some_of_mem :
    ∀ (l : List Report), (l.map Report.id).Nodup →
      ∀ r ∈ l, dictFind l r.id = some r := by
  intro l
  induction l with
  | nil => intro _ r hr; cases hr
  | cons x t ih =>
    intro h r hr
    have hx_notin : x.id ∉ t.map Report.id :=
      (List.nodup_cons.mp (by simpa using h)).1
    have ht_nodup : (t.map Report.id).Nodup :=
      (List.nodup_cons.mp (by simpa using h)).2
    rcases List.mem_cons.mp hr with heq | hmem
    · subst heq
      simp [dictFind]
    · have hx : x.id ≠ r.id := by
        intro he
        exact hx_notin (he ▸ List.mem_map_of_mem Report.id hmem)
      have hb : (x.id == r.id) = false := beq_eq_false_iff_ne.mpr hx
      unfold dictFind
      rw [List.find?_cons_of_neg _ (by simp [hb])]
      exact ih ht_nodup r hmem

theorem dictFind_stable (l1 l2 : List Report) (hperm : l1.Perm l2)
    (hnodup : (l1.map Report.id).Nodup) (i : Nat) :
    dictFind l1 i = dictFind l2 i := by
  have hnodup2 : (l2.map Report.id).Nodup :=
    ((hperm.map Report.id).nodup_iff).mp hnodup
  cases h1 : dictFind l1 i with
  | some r =>
    have hr : r ∈ l1 := List.mem_of_find?_eq_some h1
    have hri : r.id = i := by simpa using List.find?_some h1
    have hr2 : r ∈ l2 := hperm.mem_iff.mp hr
    subst hri
    exact (dictFind_eq_some_of_mem l2 hnodup2 r hr2).symm
  | none =>
    have hall := List.find?_eq_none.mp h1
    symm
    exact List.find?_eq_none.mpr (fun x hx => hall x (hperm.mem_iff.mpr hx))

theorem isEmpty_eq_of_perm {α : Type} {l1 l2 : List α} (h : l1.Perm l2) :
    l1.isEmpty = l2.isEmpty := by
  have hlen := h.length_eq
  cases l1 <;> cases l2 <;> simp_all

/-- Claim C7: for every fixed prior snapshot and every pair of new-definitions
lists that are permutations of each other (task ids being unique per the data
model), `detect_changes` produces the same change report up to ordering within
its added, removed, rescheduled and renamed collections, and in particular the
same disruptive flag. -/
theorem detect_changes_order_independent (cached l1 l2 : List Report)
    (hperm : l1.Perm l2) (hnodup : (l1.map Report.id).Nodup) :
    ((detect_changes cached l1).new_reports).Perm
      ((detect_changes cached l2).new_reports) ∧
    ((detect_changes cached l1).removed_reports).Perm
      ((detect_changes cached l2).removed_reports) ∧
    ((detect_changes cached l1).cron_changes).Perm
      ((detect_changes cached l2).cron_changes) ∧
    ((detect_changes cached l1).name_changes).Perm
      ((detect_changes cached l2).name_changes) ∧
    (detect_changes cached l1).requires_restart =
      (detect_changes cached l2).requires_restart := by
  have hnodup2 : (l2.map Report.id).Nodup :=
    ((hperm.map Report.id).nodup_iff).mp hnodup
  have hd1 : pyDict l1 = l1 := pyDict_eq_self l1 hnodup
  have hd2 : pyDict l2 = l2 := pyDict_eq_self l2 hnodup2
  have hfind : ∀ i, dictFind (pyDict l1) i = dictFind (pyDict l2) i := by
    intro i
    rw [hd1, hd2]
    exact dictFind_stable l1 l2 hperm hnodup i
  have hremoved :
      (detect_changes cached l1).removed_reports =
        (detect_changes cached l2).removed_reports := by
    rw [detect_removed_reports_eq, detect_removed_reports_eq]
    exact List.filter_congr (fun r _ => by simp [diffPred, hfind r.id])
  refine ⟨?_, ?_, ?_, ?_, ?_⟩
  · rw [detect_new_reports_eq, detect_new_reports_eq, hd1, hd2]
    exact hperm.filter _
  · rw [hremoved]
  · rw [detect_cron_changes_eq, detect_cron_changes_eq, hd1, hd2]
    exact hperm.filterMap _
  · rw [detect_name_changes_eq, detect_name_changes_eq, hd1, hd2]
    exact hperm.filterMap _
  · rw [detect_requires_restart_eq, detect_requires_restart_eq, hd1, hd2,
      isEmpty_eq_of_perm (hperm.filter
        (diffPred (fun i => (dictFind (pyDict cached) i).isSome)))]
    have hr2 :
        (pyDict cached).filter
            (diffPred (fun i => (dictFind l1 i).isSome)) =
          (pyDict cached).filter
            (diffPred (fun i => (dictFind l2 i).isSome)) :=
      List.filter_congr (fun r _ => by
        have := hfind r.id
        rw [hd1, hd2] at this
        simp [diffPred, this])
    rw [hr2]

/-- Witness for C7: a concrete prior snapshot and two orderings of the same
two new definitions yield the same disruptive flag. -/
theorem detect_changes_order_independent_witness :
    (detect_changes c7Cached c7ListA).requires_restart =
      (detect_changes c7Cached c7ListB).requires_restart :=
  (detect_changes_order_independent c7Cached c7ListA c7ListB
    (by decide) (by decide)).2.2.2.2

/-! ### C8: malformed cron expressions during sensor evaluation -/

theorem discovery_cron_map_eq (valid : String → Bool) (l : List Report) :
    discovery_cron_map valid l = l.filterMap (discEntry valid) := by
  show l.foldl _ [] = _
  rw [foldl_append_toList (discEntry valid) _ (fun acc x => by
    cases hd : discEntry valid x <;> simp [hd])]
  simp

theorem sensorLoop_error_of_bad (parse : String → Option (Nat → Bool))
    (fuel now w : Nat) (rid : Nat) (ce : String) (hbad : parse ce = none) :
    ∀ (pre post : List (Nat × String)), ∃ e,
      sensorLoop parse fuel now w (pre ++ (rid, ce) :: post) = .error e := by
  intro pre
  induction pre with
  | nil =>
    intro post
    exact ⟨"Invalid cron", by simp [sensorLoop, hbad]⟩
  | cons hd t ih =>
    intro post
    obtain ⟨e, he⟩ := ih post
    obtain ⟨rid0, ce0⟩ := hd
    cases hp : parse ce0 with
    | none => exact ⟨"Invalid cron", by simp [sensorLoop, hp]⟩
    | some fires =>
      refine ⟨e, ?_⟩
      simp only [List.cons_append, sensorLoop, hp]
      rw [show t.append ((rid, ce) :: post) = t ++ (rid, ce) :: post from rfl, he]

/-- Counterexample to C8 as stated: in a cycle whose schedules map holds a
malformed cron alongside a valid, due cron, the single try/except of the
sensor turns the malformed cron into a `SkipReason` for the whole cycle, and
the run request of the other task (which the same evaluation does produce when
the malformed entry is absent) is lost. -/
theorem sensor_bad_cron_aborts_cycle_cex :
    report_cron_sensor c8Parse 50 100 20 [(1, "bad"), (2, "good")] =
      .skip "Invalid cron" ∧
    report_cron_sensor c8Parse 50 100 20 [(2, "good")] =
      .result [mkRunRequest 2 90] := by
  constructor
  · rfl
  · rfl

/-- Claim C8 amended: per-task isolation of malformed cron expressions happens
at the discovery stage, not in the sensor: the discovery asset validates each
cron under a per-report try/except, so a report with an invalid cron is merely
dropped from the schedules map without affecting the other reports; but a
malformed cron that does reach the own loop of the sensor aborts the entire
evaluation with a `SkipReason` — no task of that cycle produces a run
request. -/
theorem sensor_abort_vs_discovery_isolation
    (parse : String → Option (Nat → Bool)) (valid : String → Bool)
    (fuel now w : Nat) (pre post : List (Nat × String)) (rid : Nat) (ce : String)
    (hbad : parse ce = none)
    (reports : List Report) (r : Report) (c : String)
    (hc : r.cron = some c) (hv : valid c = false) :
    (∀ evs, report_cron_sensor parse fuel now w (pre ++ (rid, ce) :: post) ≠
      .result evs) ∧
    discovery_cron_map valid (reports ++ [r]) =
      discovery_cron_map valid reports := by
  constructor
  · intro evs hcontra
    obtain ⟨e, he⟩ := sensorLoop_error_of_bad parse fuel now w rid ce hbad pre post
    simp [report_cron_sensor, he] at hcontra
  · have hnone : discEntry valid r = none := by
      unfold discEntry
      rw [hc]
      by_cases hid : (r.id == 0) = true
      · simp [hid]
      · simp [hid, hv]
    rw [discovery_cron_map_eq, discovery_cron_map_eq, List.filterMap_append]
    simp [List.filterMap_cons, hnone]

/-- Witness for the amended C8: a parse oracle that rejects everything makes
the sensor skip the whole cycle, while discovery simply drops the invalid
report and keeps the rest of its map unchanged. -/
theorem sensor_abort_vs_discovery_isolation_witness :
    (∀ evs, report_cron_sensor parseNothing 1 0 0 ([] ++ (1, "x") :: []) ≠
      .result evs) ∧
    discovery_cron_map alwaysInvalid ([c8GoodReport] ++ [c8BadReport]) =
      discovery_cron_map alwaysInvalid [c8GoodReport] :=
  sensor_abort_vs_discovery_isolation parseNothing alwaysInvalid 1 0 0 [] [] 1 "x"
    rfl [c8GoodReport] c8BadReport "z" rfl rfl

/-! ### C9: discovery fetch failure -/

/-- Claim C9: if the discovery fetch of task definitions fails with a
transport error, the whole cycle aborts before any snapshot write — the error
propagates, no new snapshot/changes pair is produced (so the previously
persisted snapshot is retained unchanged), and the failure is not the same
outcome as fetching an empty task list (which would classify cached
cron-bearing tasks as removed). -/
theorem discovery_fetch_error_aborts_cycle (cache : List Report) :
    runDiscovery (.error ()) cache = .error () ∧
    (∀ out, runDiscovery (.error ()) cache ≠ .ok out) ∧
    runDiscovery (.error ()) cache ≠ runDiscovery (.ok []) cache := by
  refine ⟨rfl, ?_, ?_⟩
  · intro out h
    have h' : (Except.error () : Except Unit (List Report × Changes)) = .ok out := h
    exact Except.noConfusion h'
  · intro h
    have h' : (Except.error () : Except Unit (List Report × Changes)) =
      .ok ([], detect_changes cache []) := h
    exact Except.noConfusion h'

/-- Witness for C9 with a concrete cached snapshot holding one cron-bearing
report. -/
theorem discovery_fetch_error_aborts_cycle_witness :
    runDiscovery (.error ()) c9Cache = .error () :=
  (discovery_fetch_error_aborts_cycle c9Cache).1

end Orchestrator
